import Mathlib

/-!
Verification of the `pt_device_monitor` terminal dashboard.

The development shallowly embeds the program's data model and the
operations under scrutiny:

* the session client (`login`, `makeDevicesRequest`, `fetchDevices`,
  `fetchDevicesWithRetry` from `api_client.go`), with the HTTP transport
  replaced by explicit scripted outcomes so that each network exchange is
  a parameter of the function;
* the grouping engine (`GroupDevicesByLogicalDevice`), with `time.Now()`
  replaced by an explicit clock argument;
* the display manager's `Render` state transition;
* the ANSI-aware text metrics (`displayWidth`, `stripColors`,
  `truncateString`), working over the string's bytes, with the regular
  expression `\x1b\[[0-9;]*[a-zA-Z]` implemented as the equivalent
  deterministic leftmost scanner and `utf8.RuneCountInString` implemented
  following Go's decoder.
-/

/-! ## Data model (`part_001`: API schema types) -/

structure VirtualContext where
  id : String
  name : String
  isDefault : Bool
deriving DecidableEq, Repr

structure LogicalDevice where
  id : String
  name : String
  topologyType : String
  virtualContexts : List VirtualContext
deriving DecidableEq, Repr

structure AsNode where
  syncLinkIP : String
  syncLinkPort : Int
  priority : Int
  role : String
  suspendMode : String
deriving DecidableEq, Repr

structure PhysicalDevice where
  id : String
  logicalDevice : LogicalDevice
  name : String
  description : String
  model : String
  serialNumber : String
  connectionState : String
  address : String
  addressType : String
  lastConnectedAt : String
  createdAt : String
  updatedAt : String
  asNode : Option AsNode
  softwareVersion : String
  topologyType : String
  healthStatus : String
  configurationStatus : String
  productVersion : String
  logicalDeviceChange : String
deriving DecidableEq, Repr

structure APIResponse where
  physicalDevices : List PhysicalDevice
  total : Int
deriving DecidableEq, Repr

/-! ## Session client (`api_client.go`)

The HTTP layer is replaced by scripted outcomes: each call the client
makes on the wire consumes one explicitly supplied outcome.  A response
carries its status, its raw body, plus the data the Go code extracts
from it (cookies for login, the JSON-decoded `APIResponse` for the
devices endpoint, `none` when decoding would fail). -/

structure Cookie where
  name : String
  value : String
deriving DecidableEq, Repr

structure ClientConfig where
  username : String
  password : String
deriving DecidableEq, Repr

structure ClientState where
  config : ClientConfig
  loginEndpoint : String
  devicesEndpoint : String
  authCookie : Option Cookie
  authenticated : Bool
deriving DecidableEq, Repr

inductive LoginOutcome where
  | transportErr (msg : String)
  | resp (status : Nat) (body : String) (cookies : List Cookie)
deriving DecidableEq, Repr

inductive DevOutcome where
  | transportErr (msg : String)
  | resp (status : Nat) (body : String) (parsed : Option APIResponse)
deriving DecidableEq, Repr

inductive FetchError where
  | apiError (status : Nat) (msg : String) (endpoint : String)
  | plainError (msg : String)
  | wrappedError (context : String) (inner : FetchError)
deriving DecidableEq, Repr

/-- Cookie scan of `Login`: the Go loop stores the first
cookie whose name is exactly `"Authorization"` or exactly `"Autorization"`
(the upstream misspelling) and breaks. -/
def loginCookieScan (cookies : List Cookie) : Option Cookie :=
  cookies.find? fun c => c.name == "Authorization" || c.name == "Autorization"

/-- Model of `Login(login, password)` from `api_client.go`.  Returns the call's
result together with the client state after the call.  After the cookie
scan the Go code checks `if !ac.authenticated`: when no cookie matched,
the flag still holds its value from before the call, so a client that
was already authenticated gets a nil error (keeping its stale cookie)
and only an unauthenticated client gets the missing-cookie error. -/
def login (st : ClientState) (out : LoginOutcome) :
    Except FetchError Unit × ClientState :=
  match out with
  | .transportErr m =>
      (.error (.plainError ("failed to execute login request: " ++ m)), st)
  | .resp status body cookies =>
      if status ≠ 200 then
        (.error (.apiError status body st.loginEndpoint), st)
      else
        match loginCookieScan cookies with
        | some c => (.ok (), { st with authCookie := some c, authenticated := true })
        | none =>
            if st.authenticated = false then
              (.error (.plainError "no Authorization cookie received from login response"),
                st)
            else
              (.ok (), st)

/-- Model of `makeDevicesRequest` from `api_client.go`: 401 maps to an
`APIError{401, "authentication expired"}`, any other non-200 status to an
`APIError` carrying the body, and a 200 whose body does not decode to a
plain error. -/
def makeDevicesRequest (st : ClientState) (out : DevOutcome) :
    Except FetchError APIResponse :=
  match out with
  | .transportErr m => .error (.plainError ("failed to execute request: " ++ m))
  | .resp status body parsed =>
      if status = 401 then
        .error (.apiError 401 "authentication expired" st.devicesEndpoint)
      else if status ≠ 200 then
        .error (.apiError status body st.devicesEndpoint)
      else
        match parsed with
        | some r => .ok r
        | none => .error (.plainError "failed to parse JSON response")

/-- The calls `FetchDevices` makes on the wire, in order. -/
inductive CallEvent where
  | devicesCall
  | loginCall (username password : String)
deriving DecidableEq, Repr

/-- Go's `err.(*APIError)` type assertion plus the `StatusCode == 401`
test: a wrapped error is not an `*APIError`. -/
def isAPIError401 : FetchError → Bool
  | .apiError 401 _ _ => true
  | _ => false

/-- Model of `FetchDevices` from `api_client.go`.  `d1` scripts the first devices
request, `lg` the re-login and `d2` the retried request (the latter two
are consumed only on the 401 path).  Returns the result, the client
state afterwards, and the trace of wire calls made. -/
def fetchDevices (st : ClientState) (d1 : DevOutcome) (lg : LoginOutcome)
    (d2 : DevOutcome) :
    Except FetchError APIResponse × ClientState × List CallEvent :=
  if st.authenticated = false then
    (.error (.plainError "not authenticated - please login first"), st, [])
  else
    match makeDevicesRequest st d1 with
    | .ok r => (.ok r, st, [.devicesCall])
    | .error e =>
        if isAPIError401 e then
          let st1 := { st with authenticated := false }
          match login st1 lg with
          | (.error le, st2) =>
              (.error (.wrappedError "failed to re-authenticate" le), st2,
                [.devicesCall, .loginCall st1.config.username st1.config.password])
          | (.ok _, st2) =>
              match makeDevicesRequest st2 d2 with
              | .ok r =>
                  (.ok r, st2,
                    [.devicesCall, .loginCall st1.config.username st1.config.password,
                      .devicesCall])
              | .error e2 =>
                  (.error (.wrappedError "failed after re-authentication" e2), st2,
                    [.devicesCall, .loginCall st1.config.username st1.config.password,
                      .devicesCall])
        else
          (.error e, st, [.devicesCall])

/-- The `apiErr.StatusCode >= 400 && apiErr.StatusCode < 500` test of
`FetchDevicesWithRetry`, again behind Go's `err.(*APIError)` assertion. -/
def isClientError : FetchError → Bool
  | .apiError s _ _ => 400 ≤ s && s < 500
  | _ => false

/-- The retry loop of `FetchDevicesWithRetry`.  `f i` scripts the result
of the `i`-th `FetchDevices` call, `attempt` is the current attempt
index and `fuel` the number of attempts still allowed after this one
(`maxRetries - attempt` in the Go loop).  Returns the raw result (the
final wrapping is applied by `fetchDevicesWithRetry`), the number of
`FetchDevices` calls made and the list of sleep durations (in seconds)
in order. -/
def retryFrom (f : Nat → Except FetchError APIResponse) :
    Nat → Nat → Except FetchError APIResponse × Nat × List Nat
  | attempt, fuel =>
    let sl : List Nat := if attempt = 0 then [] else [attempt]
    match f attempt with
    | .ok r => (.ok r, 1, sl)
    | .error e =>
        if isClientError e then (.error e, 1, sl)
        else
          match fuel with
          | 0 => (.error e, 1, sl)
          | fuel' + 1 =>
              let rec' := retryFrom f (attempt + 1) fuel'
              (rec'.1, rec'.2.1 + 1, sl ++ rec'.2.2)

/-- Model of `FetchDevicesWithRetry(maxRetries)` from `api_client.go`.  On
failure the Go code returns `fmt.Errorf("failed after %d attempts: %w",
maxRetries+1, lastErr)`; that wrapper is modelled as the pair of the
named attempt count and the wrapped last error. -/
def fetchDevicesWithRetry (f : Nat → Except FetchError APIResponse)
    (maxRetries : Nat) :
    Except (Nat × FetchError) APIResponse × Nat × List Nat :=
  match retryFrom f 0 maxRetries with
  | (.ok r, n, s) => (.ok r, n, s)
  | (.error e, n, s) => (.error (maxRetries + 1, e), n, s)

/-! ## Grouping engine (`GroupDevicesByLogicalDevice`, `part_000`)

The Go code accumulates devices into `groupMap[logicalID]`; the map is
modelled as an association list in first-occurrence (insertion) order.
`time.Now()` is modelled as the explicit `now` argument. -/

structure GroupAcc where
  key : String
  logicalDevice : LogicalDevice
  physicalDevices : List PhysicalDevice
deriving DecidableEq, Repr

structure LogicalDeviceGroup where
  logicalDevice : LogicalDevice
  physicalDevices : List PhysicalDevice
  isCluster : Bool
  activeNode : Option PhysicalDevice
  standbyNodes : List PhysicalDevice
deriving DecidableEq, Repr

structure GroupedDevices where
  logicalDeviceGroups : List LogicalDeviceGroup
  totalDevices : Nat
  lastUpdated : Nat
deriving DecidableEq, Repr

/-- One step of the first loop of `GroupDevicesByLogicalDevice`: append
the device to the bucket keyed by its logical-device id, creating the
bucket (carrying this device's `LogicalDevice` record) when absent. -/
def addDevice (acc : List GroupAcc) (d : PhysicalDevice) : List GroupAcc :=
  match acc with
  | [] => [⟨d.logicalDevice.id, d.logicalDevice, [d]⟩]
  | g :: gs =>
      if g.key = d.logicalDevice.id then
        { g with physicalDevices := g.physicalDevices ++ [d] } :: gs
      else
        g :: addDevice gs d

/-- Derivation of `group.IsCluster` from the group's topology type. -/
def isClusterTopology (ld : LogicalDevice) : Bool :=
  ld.topologyType == "TOPOLOGY_TYPE_ACTIVE_STANDBY" ||
    ld.topologyType == "TOPOLOGY_TYPE_CLUSTER"

/-- The per-device test `device.AsNode != nil && device.AsNode.Role ==
"ACTIVE_STANDBY_ROLE_ACTIVE"`. -/
def isActiveNode (d : PhysicalDevice) : Bool :=
  match d.asNode with
  | some n => n.role == "ACTIVE_STANDBY_ROLE_ACTIVE"
  | none => false

/-- The per-device test `device.AsNode != nil && device.AsNode.Role ==
"ACTIVE_STANDBY_ROLE_STANDBY"`. -/
def isStandbyNode (d : PhysicalDevice) : Bool :=
  match d.asNode with
  | some n => n.role == "ACTIVE_STANDBY_ROLE_STANDBY"
  | none => false

/-- One iteration of the member scan of a clustered group: an active
device overwrites `ActiveNode`, a standby device is appended to
`StandbyNodes` (the active branch is tested first, as in the Go
`if/else if`). -/
def scanNode (acc : Option PhysicalDevice × List PhysicalDevice)
    (d : PhysicalDevice) : Option PhysicalDevice × List PhysicalDevice :=
  if isActiveNode d then (some d, acc.2)
  else if isStandbyNode d then (acc.1, acc.2 ++ [d])
  else acc

/-- The second loop of `GroupDevicesByLogicalDevice`: derive the cluster
flag and, for clusters, the active/standby designations. -/
def finalizeGroup (g : GroupAcc) : LogicalDeviceGroup :=
  let isCluster := isClusterTopology g.logicalDevice
  let scanned :=
    if isCluster then g.physicalDevices.foldl scanNode (none, []) else (none, [])
  { logicalDevice := g.logicalDevice
    physicalDevices := g.physicalDevices
    isCluster := isCluster
    activeNode := scanned.1
    standbyNodes := scanned.2 }

/-- Model of `GroupDevicesByLogicalDevice(response)` with `time.Now()`
passed in as `now`.  Go iterates `groupMap` in randomized order; this
model visits the buckets in insertion order, which is one admissible
iteration order.  Every property proved from this definition below is
insensitive to that choice except the group-list order itself;
order-sensitive statements are made through `groupDevicesInOrder`, which
takes the iteration order as an explicit argument. -/
def groupDevicesByLogicalDevice (r : APIResponse) (now : Nat) : GroupedDevices :=
  { logicalDeviceGroups := (r.physicalDevices.foldl addDevice []).map finalizeGroup
    totalDevices := r.physicalDevices.length
    lastUpdated := now }

/-- Model of `GroupDevicesByLogicalDevice(response)` with both
`time.Now()` and the randomized iteration order of the second loop
(`for _, group := range groupMap`) made explicit: `ord` lists the bucket
indices in visit order, and a run of the Go program corresponds to an
`ord` that is a permutation of the bucket indices. -/
def groupDevicesInOrder (r : APIResponse) (now : Nat) (ord : List Nat) :
    GroupedDevices :=
  { logicalDeviceGroups :=
      (ord.filterMap
        (fun i => (r.physicalDevices.foldl addDevice [])[i]?)).map finalizeGroup
    totalDevices := r.physicalDevices.length
    lastUpdated := now }

/-- First-occurrence lookup in the bucket list, mirroring `groupMap[k]`. -/
def lookupG : List GroupAcc → String → Option GroupAcc
  | [], _ => none
  | g :: gs, k => if g.key = k then some g else lookupG gs k

/-! ## Display manager `Render` (`part_000`)

Only the state transition and the shape of the rendered body are
modelled: `err` is the message of the incoming error (`err.Error()` in
Go, `none` for a nil error), and the body records which of the four
mutually exclusive branches of `Render` produced the screen contents. -/

structure DisplayState where
  lastData : Option GroupedDevices
  errorMessage : String
deriving DecidableEq, Repr

/-- What `Render` draws between header and footer. `errorBanner` carries
the stored error message and, when a retained snapshot exists, the
`Last known data (from …)` subheader timestamp together with the
snapshot that is rendered beneath the banner. -/
inductive RenderBody where
  | errorBanner (msg : String) (stale : Option (Nat × GroupedDevices))
  | deviceGroups (data : GroupedDevices)
  | waiting
deriving DecidableEq, Repr

/-- Model of `Render(data, err)` from `part_000`: on a non-nil error only
`errorMessage` is updated; on a nil error the message is cleared and
`lastData` is replaced by `data`.  The body follows the Go branch
structure (`errorMessage != ""` / `data != nil` / waiting). -/
def render (st : DisplayState) (data : Option GroupedDevices)
    (err : Option String) : DisplayState × RenderBody :=
  let st' : DisplayState :=
    match err with
    | some e => { st with errorMessage := e }
    | none => { lastData := data, errorMessage := "" }
  let body : RenderBody :=
    if st'.errorMessage ≠ "" then
      .errorBanner st'.errorMessage
        (st'.lastData.map fun dta => (dta.lastUpdated, dta))
    else
      match data with
      | some dta => .deviceGroups dta
      | none => .waiting
  (st', body)

/-- A sequence of `Render` calls, oldest first. -/
def renderSeq (st : DisplayState)
    (calls : List (Option GroupedDevices × Option String)) : DisplayState :=
  calls.foldl (fun s c => (render s c.1 c.2).1) st

/-! ## ANSI-aware text metrics (`part_000`)

Strings are modelled by their bytes (`List Nat`).  The regular
expression `\x1b\[[0-9;]*[a-zA-Z]` used by `displayWidth`,
`stripColors` and `truncateString` is implemented as the equivalent
deterministic leftmost scanner: at each position a match is attempted
(`tryAnsi`); on success the match is consumed, otherwise one byte is
kept.  Greedy `[0-9;]*` never needs backtracking here because a shorter
parameter span would end at a digit or semicolon, which is not a
letter. -/

/-- Bytes accepted by `[0-9;]`. -/
def isParamByte (b : Nat) : Bool :=
  (48 ≤ b && b ≤ 57) || b = 59

/-- Bytes accepted by `[a-zA-Z]`. -/
def isAlphaByte (b : Nat) : Bool :=
  (65 ≤ b && b ≤ 90) || (97 ≤ b && b ≤ 122)

/-- Longest prefix of `[0-9;]` bytes and the remainder. -/
def spanParam : List Nat → List Nat × List Nat
  | [] => ([], [])
  | b :: r =>
      if isParamByte b then
        let s := spanParam r
        (b :: s.1, s.2)
      else ([], b :: r)

/-- Try to match `\x1b\[[0-9;]*[a-zA-Z]` at the head of the byte list;
on success return the matched bytes and the remainder. -/
def tryAnsi (l : List Nat) : Option (List Nat × List Nat) :=
  match l with
  | b ::  c :: r =>
      if b = 27 ∧ c = 91 then
        let s := spanParam r
        match s.2 with
        | ch :: r2 =>
            if isAlphaByte ch then some (27 :: 91 :: (s.1 ++ [ch]), r2) else none
        | [] => none
      else none
  | _ => none

theorem spanParam_append (l : List Nat) : (spanParam l).1 ++ (spanParam l).2 = l := by
  induction l with
  | nil => simp [spanParam]
  | cons b r ih =>
      by_cases h : isParamByte b = true <;> simp [spanParam, h, ih]

theorem tryAnsi_some {l code rest : List Nat}
    (h : tryAnsi l = some (code, rest)) :
    l = code ++ rest ∧ 3 ≤ code.length := by
  match l with
  | [] => simp [tryAnsi] at h
  | [b] => simp [tryAnsi] at h
  | b :: c :: r =>
      by_cases hbc : b = 27 ∧ c = 91
      · obtain ⟨hb, hc⟩ := hbc
        subst hb; subst hc
        rcases hsp : spanParam r with ⟨ps, rs⟩
        rcases rs with _ | ⟨ch, r2⟩
        · simp [tryAnsi, hsp] at h
        · by_cases hal : isAlphaByte ch
          · simp only [tryAnsi, hsp, hal, if_true, and_self, Option.some.injEq,
              Prod.mk.injEq] at h
            obtain ⟨hcode, hrest⟩ := h
            have hspr := spanParam_append r
            rw [hsp] at hspr
            simp only at hspr
            subst hcode; subst hrest
            refine ⟨?_, by simp⟩
            simp only [List.cons_append, List.cons.injEq, true_and]
            rw [← hspr]
            simp
          · simp [tryAnsi, hsp, hal] at h
      · simp [tryAnsi, hbc] at h

theorem tryAnsi_rest_lt {l code rest : List Nat}
    (h : tryAnsi l = some (code, rest)) : rest.length < l.length := by
  obtain ⟨hl, hlen⟩ := tryAnsi_some h
  rw [hl]
  simp
  omega

/-- Fuel-indexed scanner behind `stripColors`: one unit of fuel per
consumed position (each step consumes at least one byte, so
`l.length` fuel always suffices). -/
def stripColorsFuel : Nat → List Nat → List Nat
  | 0, _ => []
  | _, [] => []
  | fuel + 1, b :: r =>
      match tryAnsi (b :: r) with
      | some (_, rest) => stripColorsFuel fuel rest
      | none => b :: stripColorsFuel fuel r

/-- The byte-level action of `ansiRegex.ReplaceAllString(s, "")`: used
by both `stripColors` and `displayWidth` in `part_000`. -/
def stripColors (l : List Nat) : List Nat :=
  stripColorsFuel l.length l

/-- Fuel-indexed scanner behind `scanAnsi`. -/
def scanAnsiFuel : Nat → List Nat → List (List Nat) × List (List Nat)
  | 0, _ => ([[]], [])
  | _, [] => ([[]], [])
  | fuel + 1, b :: r =>
      match tryAnsi (b :: r) with
      | some (code, rest) =>
          let s := scanAnsiFuel fuel rest
          ([] :: s.1, code :: s.2)
      | none =>
          let s := scanAnsiFuel fuel r
          match s.1 with
          | [] => ([[b]], s.2)
          | p :: ps => ((b :: p) :: ps, s.2)

/-- The combined action of `ansiRegex.Split(s, -1)` and
`ansiRegex.FindAllString(s, -1)`: the list of gaps between matches
(including empty gaps, as Go's `Split` does) and the list of matches, in
order.  `Split` always yields one more part than there are matches. -/
def scanAnsi (l : List Nat) : List (List Nat) × List (List Nat) :=
  scanAnsiFuel l.length l

/-- One rune-decoding step of Go's `utf8` tables: for a lead byte `c ≥
0x80`, the expected encoding size together with the accepted range of
the second byte (`none` for an invalid lead byte).  Continuation bytes
beyond the second accept `0x80–0xBF`. -/
def utf8LeadInfo (c : Nat) : Option (Nat × Nat × Nat) :=
  if c < 194 then none
  else if c ≤ 223 then some (2, 128, 191)
  else if c = 224 then some (3, 160, 191)
  else if c ≤ 236 then some (3, 128, 191)
  else if c = 237 then some (3, 128, 159)
  else if c ≤ 239 then some (3, 128, 191)
  else if c = 240 then some (4, 144, 191)
  else if c ≤ 243 then some (4, 128, 191)
  else if c = 244 then some (4, 128, 143)
  else none

/-- How many bytes beyond the lead byte one iteration of Go's
`utf8.RuneCountInString` consumes: 0 for ASCII, an invalid lead byte, a
short tail or an out-of-range continuation byte (Go then advances by one
byte), otherwise `size - 1`. -/
def runeAdvance (c : Nat) (r : List Nat) : Nat :=
  if c < 128 then 0
  else
    match utf8LeadInfo c with
    | none => 0
    | some (size, lo, hi) =>
        if size = 2 then
          match r with
          | b1 :: _ => if lo ≤ b1 ∧ b1 ≤ hi then 1 else 0
          | _ => 0
        else if size = 3 then
          match r with
          | b1 :: b2 :: _ =>
              if ¬(lo ≤ b1 ∧ b1 ≤ hi) then 0
              else if ¬(128 ≤ b2 ∧ b2 ≤ 191) then 0
              else 2
          | _ => 0
        else
          match r with
          | b1 :: b2 :: b3 :: _ =>
              if ¬(lo ≤ b1 ∧ b1 ≤ hi) then 0
              else if ¬(128 ≤ b2 ∧ b2 ≤ 191) then 0
              else if ¬(128 ≤ b3 ∧ b3 ≤ 191) then 0
              else 3
          | _ => 0

/-- Fuel-indexed loop behind `runeCount`. -/
def runeCountFuel : Nat → List Nat → Nat
  | 0, _ => 0
  | _, [] => 0
  | fuel + 1, c :: r => 1 + runeCountFuel fuel (r.drop (runeAdvance c r))

/-- Go's `utf8.RuneCountInString` over the byte list: every iteration
counts one rune and consumes at least one byte, so `l.length` fuel
always suffices. -/
def runeCount (l : List Nat) : Nat :=
  runeCountFuel l.length l

/-- Model of `displayWidth` from `part_000`: rune count of the
ANSI-stripped string. -/
def displayWidth (l : List Nat) : Nat :=
  runeCount (stripColors l)

/-- The bytes of `"..."`. -/
def ellipsisBytes : List Nat := [46, 46, 46]

/-- The bytes of `ColorReset` (`"\x1b[0m"`). -/
def colorResetBytes : List Nat := [27, 91, 48, 109]

/-- The reconstruction loop of `truncateString`: walk the split text
parts, writing whole parts while they fit in the remaining budget
(following each completely written part by the next colour code, when
one is left) and cutting the first part that overflows at the byte
budget.  `textLen` is the byte count written so far. -/
def buildTrunc : List (List Nat) → List (List Nat) → Nat → Nat → List Nat
  | [], _, _, _ => []
  | p :: ps, cs, targetLen, textLen =>
      if targetLen ≤ textLen then []
      else
        let remaining := targetLen - textLen
        if p.length ≤ remaining then
          p ++
            (match cs with
             | [] => buildTrunc ps [] targetLen (textLen + p.length)
             | c :: cs' => c ++ buildTrunc ps cs' targetLen (textLen + p.length))
        else p.take remaining

/-- Model of `truncateString(s, maxLen)` from `part_000`, over the string's
bytes.  Go's `len` is the byte count and slicing is byte slicing; the
width tests use `displayWidth`. -/
def truncateString (s : List Nat) (maxLen : Nat) : List Nat :=
  if displayWidth s ≤ maxLen then s
  else if maxLen ≤ 3 then
    let clean := stripColors s
    if clean.length ≤ maxLen then clean else clean.take maxLen
  else
    let clean := stripColors s
    if clean.length ≤ maxLen - 3 then s
    else
      let scanned := scanAnsi s
      buildTrunc scanned.1 scanned.2 (maxLen - 3) 0 ++ ellipsisBytes ++ colorResetBytes

/-- Shape of a complete ANSI colour-code match of the regular
expression: an escape byte, `[`, parameter bytes, and a final letter. -/
def IsAnsiCode (c : List Nat) : Prop :=
  ∃ ps ch, c = 27 :: 91 :: (ps ++ [ch]) ∧
    (∀ b ∈ ps, isParamByte b = true) ∧ isAlphaByte ch = true

/-! ## Concrete fixtures used by counterexamples and witnesses -/

/-- An authenticated client, as after a successful `Login`. -/
def stAuth : ClientState :=
  { config := { username := "admin", password := "secret" }
    loginEndpoint := "https://mgmt/Login"
    devicesEndpoint := "https://mgmt/ListPhysicalDevices"
    authCookie := some { name := "Authorization", value := "tok0" }
    authenticated := true }

/-- An empty, well-formed devices response body. -/
def emptyResp : APIResponse := { physicalDevices := [], total := 0 }

/-- A clustered logical device record. -/
def ldCluster : LogicalDevice :=
  { id := "L1", name := "fw-cluster"
    topologyType := "TOPOLOGY_TYPE_ACTIVE_STANDBY", virtualContexts := [] }

/-- A standalone logical device record. -/
def ldStandalone : LogicalDevice :=
  { id := "L2", name := "fw-single"
    topologyType := "TOPOLOGY_TYPE_STANDALONE", virtualContexts := [] }

/-- A cluster-node facet with the active role. -/
def asActive : AsNode :=
  { syncLinkIP := "10.0.0.1", syncLinkPort := 9000, priority := 100
    role := "ACTIVE_STANDBY_ROLE_ACTIVE", suspendMode := "" }

/-- A device template; fixtures override the distinguishing fields. -/
def baseDevice : PhysicalDevice :=
  { id := "", logicalDevice := ldCluster, name := "", description := ""
    model := "", serialNumber := "", connectionState := "", address := ""
    addressType := "", lastConnectedAt := "", createdAt := "", updatedAt := ""
    asNode := none, softwareVersion := "", topologyType := "", healthStatus := ""
    configurationStatus := "", productVersion := "", logicalDeviceChange := "" }

/-- First device of cluster `L1`, node role active. -/
def devA : PhysicalDevice :=
  { baseDevice with id := "A", name := "node-a", asNode := some asActive }

/-- Second device of cluster `L1`, also node role active. -/
def devB : PhysicalDevice :=
  { baseDevice with id := "B", name := "node-b", asNode := some asActive }

/-- A standalone device of `L2`. -/
def devS : PhysicalDevice :=
  { baseDevice with id := "S", name := "single", logicalDevice := ldStandalone }

/-- A fetch response whose cluster group has two active members. -/
def respTwoActive : APIResponse := { physicalDevices := [devA, devB], total := 2 }

/-- A fetch response with a cluster group and a standalone group. -/
def respMixed : APIResponse := { physicalDevices := [devA, devB, devS], total := 3 }

/-- A retained grouped snapshot with timestamp 42. -/
def gdSnap : GroupedDevices :=
  { logicalDeviceGroups := [], totalDevices := 7, lastUpdated := 42 }

/-- A display state holding `gdSnap` as last-known data. -/
def dstSnap : DisplayState := { lastData := some gdSnap, errorMessage := "" }

/-- The bytes of the ASCII string `HELLOWORLD`. -/
def helloBytes : List Nat := [72, 69, 76, 76, 79, 87, 79, 82, 76, 68]

/-- The group the engine builds for `respMixed`'s cluster `L1`. -/
def gClusterFix : LogicalDeviceGroup :=
  { logicalDevice := ldCluster, physicalDevices := [devA, devB]
    isCluster := true, activeNode := some devB, standbyNodes := [] }

/-- A second device of `L1` whose embedded record carries a different
display name than `devA`'s record. -/
def devBConflict : PhysicalDevice :=
  { devB with logicalDevice := { ldCluster with name := "fw-cluster-renamed" } }

/-- A response whose two devices share logical-device id `L1` but carry
differing embedded `LogicalDevice` records. -/
def respConflict : APIResponse := { physicalDevices := [devA, devBConflict], total := 2 }

/-- The single group the engine builds for `respConflict`. -/
def gConflictFix : LogicalDeviceGroup :=
  { logicalDevice := ldCluster, physicalDevices := [devA, devBConflict]
    isCluster := true, activeNode := some devBConflict, standbyNodes := [] }

/-- A session cookie using the upstream misspelling. -/
def cookieTypo : Cookie := { name := "Autorization", value := "tok1" }

/-- The client state after storing `cookieTypo`. -/
def stAuthTypo : ClientState :=
  { stAuth with authCookie := some cookieTypo, authenticated := true }

/-! ## Theorems: session client -/

theorem login_ok_state {st : ClientState} {out : LoginOutcome}
    (h : (login st out).1 = .ok ()) :
    (login st out).2.authenticated = true := by
  cases out with
  | transportErr m => simp [login] at h
  | resp status body cookies =>
      by_cases hs : status = 200
      · subst hs
        rcases hsc : loginCookieScan cookies with _ | c
        · cases hauth : st.authenticated with
          | false => simp [login, hsc, hauth] at h
          | true => simp [login, hsc, hauth]
        · simp [login, hsc]
      · simp [login, hs] at h

theorem c6_counterexample :
    (login { stAuth with authenticated := false, authCookie := none }
        (.resp 200 "" [{ name := "AUTHORIZATION", value := "tok" }])).1 =
      .error (.plainError "no Authorization cookie received from login response") ∧
    (login { stAuth with authenticated := false, authCookie := none }
        (.resp 200 "" [{ name := "AUTHORIZATION", value := "tok" }])).2.authenticated
      = false ∧
    "AUTHORIZATION".data.map Char.toLower = "Authorization".data.map Char.toLower ∧
    login stAuth (.resp 200 "" []) = (.ok (), stAuth) := by
  refine ⟨rfl, rfl, by decide, rfl⟩

/-- C6 (amended): a non-200 `Login` response fails with an `APIError`
and leaves the client state unchanged; a 200 response with no cookie
named exactly `"Authorization"` or exactly `"Autorization"` — matched
case-sensitively, not case-insensitively — fails with an error only when
the client was not already authenticated (the state is unchanged either
way; a client that was already authenticated gets a nil error and keeps
its stale cookie); a 200 response carrying such a cookie stores the
first one and marks the client authenticated. -/
theorem c6_login_session_cookie :
    ∀ (st : ClientState) (status : Nat) (body : String) (cookies : List Cookie),
      (status ≠ 200 →
        login st (.resp status body cookies) =
          (.error (.apiError status body st.loginEndpoint), st)) ∧
      (status = 200 → loginCookieScan cookies = none → st.authenticated = false →
        login st (.resp status body cookies) =
          (.error (.plainError "no Authorization cookie received from login response"),
            st)) ∧
      (status = 200 → loginCookieScan cookies = none → st.authenticated = true →
        login st (.resp status body cookies) = (.ok (), st)) ∧
      (∀ c, status = 200 → loginCookieScan cookies = some c →
        login st (.resp status body cookies) =
          (.ok (), { st with authCookie := some c, authenticated := true })) ∧
      ((loginCookieScan cookies).isSome ↔
        ∃ c ∈ cookies, c.name = "Authorization" ∨ c.name = "Autorization") := by
  intro st status body cookies
  refine ⟨fun hs => by simp [login, hs],
    fun hs hsc hauth => by simp [login, hs, hsc, hauth],
    fun hs hsc hauth => by simp [login, hs, hsc, hauth],
    fun c hs hsc => by simp [login, hs, hsc], ?_⟩
  simp [loginCookieScan, List.find?_isSome]

theorem c6_login_session_cookie_witness :
    (401 : Nat) ≠ 200 ∧
    login stAuth (.resp 401 "denied" []) =
      (.error (.apiError 401 "denied" stAuth.loginEndpoint), stAuth) ∧
    loginCookieScan [] = none ∧
    ({ stAuth with authenticated := false } : ClientState).authenticated = false ∧
    login { stAuth with authenticated := false } (.resp 200 "" []) =
      (.error (.plainError "no Authorization cookie received from login response"),
        { stAuth with authenticated := false }) ∧
    stAuth.authenticated = true ∧
    login stAuth (.resp 200 "" []) = (.ok (), stAuth) ∧
    loginCookieScan [cookieTypo] = some cookieTypo ∧
    login stAuth (.resp 200 "" [cookieTypo]) = (.ok (), stAuthTypo) := by
  refine ⟨by decide, (c6_login_session_cookie stAuth 401 "denied" []).1 (by decide),
    rfl, rfl, ?_, rfl, ?_, by decide, ?_⟩
  · exact (c6_login_session_cookie { stAuth with authenticated := false }
      200 "" []).2.1 rfl rfl rfl
  · exact (c6_login_session_cookie stAuth 200 "" []).2.2.1 rfl rfl rfl
  · exact (c6_login_session_cookie stAuth 200 "" [cookieTypo]).2.2.2.1
      cookieTypo rfl (by decide)

/-- C1: on a 401 from the first devices request, an authenticated client
clears its authenticated flag, re-logs-in exactly once with the stored
credentials and retries the devices request exactly once; a re-login or
retry failure is surfaced (wrapped), and a 200 retry with a parseable
body returns the parsed list with the authenticated flag true. -/
theorem c1_fetchDevices_reauth :
    ∀ (st : ClientState) (b : String) (p : Option APIResponse)
      (lg : LoginOutcome) (d2 : DevOutcome),
      st.authenticated = true →
      (∀ le st2, login { st with authenticated := false } lg = (.error le, st2) →
        fetchDevices st (.resp 401 b p) lg d2 =
          (.error (.wrappedError "failed to re-authenticate" le), st2,
            [.devicesCall, .loginCall st.config.username st.config.password])) ∧
      (∀ st2, login { st with authenticated := false } lg = (.ok (), st2) →
        ((fetchDevices st (.resp 401 b p) lg d2).2.2 =
          [.devicesCall, .loginCall st.config.username st.config.password,
            .devicesCall]) ∧
        (∀ e2, makeDevicesRequest st2 d2 = .error e2 →
          (fetchDevices st (.resp 401 b p) lg d2).1 =
            .error (.wrappedError "failed after re-authentication" e2)) ∧
        (∀ b2 r, d2 = .resp 200 b2 (some r) →
          (fetchDevices st (.resp 401 b p) lg d2).1 = .ok r ∧
          (fetchDevices st (.resp 401 b p) lg d2).2.1.authenticated = true)) := by
  intro st b p lg d2 hauth
  have h401 : makeDevicesRequest st (.resp 401 b p) =
      .error (.apiError 401 "authentication expired" st.devicesEndpoint) := by
    simp [makeDevicesRequest]
  constructor
  · intro le st2 hlg
    simp only [fetchDevices, hauth, Bool.true_eq_false, if_false, h401, isAPIError401,
      hlg, if_true]
  · intro st2 hlg
    have hst2auth : st2.authenticated = true := by
      have := @login_ok_state { st with authenticated := false } lg
      rw [hlg] at this
      exact this rfl
    refine ⟨?_, ?_, ?_⟩
    · simp only [fetchDevices, hauth, Bool.true_eq_false, if_false, h401,
        isAPIError401, hlg]
      rcases makeDevicesRequest st2 d2 with e2 | r <;> simp
    · intro e2 he2
      simp only [fetchDevices, hauth, Bool.true_eq_false, if_false, h401,
        isAPIError401, hlg, he2, if_true]
    · intro b2 r hd2
      subst hd2
      have hreq : makeDevicesRequest st2 (.resp 200 b2 (some r)) = .ok r := by
        simp [makeDevicesRequest]
      simp only [fetchDevices, hauth, Bool.true_eq_false, if_false, h401,
        isAPIError401, hlg, hreq, if_true]
      exact ⟨trivial, hst2auth⟩

theorem c1_fetchDevices_reauth_witness :
    stAuth.authenticated = true ∧
    login { stAuth with authenticated := false } (.resp 200 "" [cookieTypo]) =
      (.ok (), stAuthTypo) ∧
    (fetchDevices stAuth (.resp 401 "" none) (.resp 200 "" [cookieTypo])
        (.resp 200 "{}" (some emptyResp))).2.2 =
      [.devicesCall, .loginCall "admin" "secret", .devicesCall] ∧
    (fetchDevices stAuth (.resp 401 "" none) (.resp 200 "" [cookieTypo])
        (.resp 200 "{}" (some emptyResp))).1 = .ok emptyResp ∧
    (fetchDevices stAuth (.resp 401 "" none) (.resp 200 "" [cookieTypo])
        (.resp 200 "{}" (some emptyResp))).2.1.authenticated = true := by
  have h := c1_fetchDevices_reauth stAuth "" none (.resp 200 "" [cookieTypo])
    (.resp 200 "{}" (some emptyResp)) rfl
  have hlg : login { stAuth with authenticated := false } (.resp 200 "" [cookieTypo]) =
      (.ok (), stAuthTypo) := by rfl
  have h2 := h.2 stAuthTypo hlg
  have h3 := h2.2.2 "{}" emptyResp rfl
  exact ⟨rfl, hlg, h2.1, h3.1, h3.2⟩


theorem range_one_map (a : Nat) : (List.range 1).map (· + a) = [a] := by
  simp [List.range_succ]

theorem retryFrom_ok {f : Nat → Except FetchError APIResponse} {attempt : Nat}
    {r : APIResponse} (hf : f attempt = .ok r) (fuel : Nat) :
    retryFrom f attempt fuel =
      (.ok r, 1, if attempt = 0 then [] else [attempt]) := by
  cases fuel <;> (rw [retryFrom, hf])

theorem retryFrom_client {f : Nat → Except FetchError APIResponse} {attempt : Nat}
    {e : FetchError} (hf : f attempt = .error e) (hc : isClientError e = true)
    (fuel : Nat) :
    retryFrom f attempt fuel =
      (.error e, 1, if attempt = 0 then [] else [attempt]) := by
  cases fuel <;> (rw [retryFrom, hf]; simp [hc])

theorem retryFrom_stop {f : Nat → Except FetchError APIResponse} {attempt : Nat}
    {e : FetchError} (hf : f attempt = .error e) (hc : isClientError e = false) :
    retryFrom f attempt 0 =
      (.error e, 1, if attempt = 0 then [] else [attempt]) := by
  rw [retryFrom, hf]
  simp [hc]

theorem retryFrom_step {f : Nat → Except FetchError APIResponse} {attempt : Nat}
    {e : FetchError} (hf : f attempt = .error e) (hc : isClientError e = false)
    (n : Nat) :
    retryFrom f attempt (n + 1) =
      ((retryFrom f (attempt + 1) n).1,
        (retryFrom f (attempt + 1) n).2.1 + 1,
        (if attempt = 0 then [] else [attempt]) ++ (retryFrom f (attempt + 1) n).2.2) := by
  rw [retryFrom, hf]
  simp [hc]

theorem retryFrom_calls_le (f : Nat → Except FetchError APIResponse) :
    ∀ (fuel attempt : Nat), (retryFrom f attempt fuel).2.1 ≤ fuel + 1 := by
  intro fuel
  induction fuel with
  | zero =>
      intro attempt
      rcases hf : f attempt with e | r
      · rcases hc : isClientError e
        · rw [retryFrom_stop hf hc]
        · rw [retryFrom_client hf hc 0]
      · rw [retryFrom_ok hf 0]
  | succ n ih =>
      intro attempt
      rcases hf : f attempt with e | r
      · rcases hc : isClientError e
        · rw [retryFrom_step hf hc n]
          have := ih (attempt + 1)
          simp only []
          omega
        · rw [retryFrom_client hf hc (n + 1)]
          exact Nat.le_add_left 1 (n + 1)
      · rw [retryFrom_ok hf (n + 1)]
        exact Nat.le_add_left 1 (n + 1)

theorem retryFrom_sleeps_pos (f : Nat → Except FetchError APIResponse) :
    ∀ (fuel attempt : Nat), attempt ≠ 0 →
      (retryFrom f attempt fuel).2.2 =
        (List.range (retryFrom f attempt fuel).2.1).map (· + attempt) := by
  intro fuel
  induction fuel with
  | zero =>
      intro attempt ha
      rcases hf : f attempt with e | r
      · rcases hc : isClientError e
        · rw [retryFrom_stop hf hc]
          simp [ha, range_one_map]
        · rw [retryFrom_client hf hc 0]
          simp [ha, range_one_map]
      · rw [retryFrom_ok hf 0]
        simp [ha, range_one_map]
  | succ n ih =>
      intro attempt ha
      rcases hf : f attempt with e | r
      · rcases hc : isClientError e
        · rw [retryFrom_step hf hc n]
          simp only [ha, if_false]
          rw [ih (attempt + 1) (by omega)]
          rw [List.range_succ_eq_map, List.map_cons, List.map_map]
          simp only [Nat.zero_add, List.singleton_append]
          have hfun : ((fun x => x + attempt) ∘ Nat.succ) =
              (fun x => x + (attempt + 1)) := by
            funext x
            simp only [Function.comp_apply, Nat.succ_eq_add_one]
            omega
          rw [hfun]
        · rw [retryFrom_client hf hc (n + 1)]
          simp [ha, range_one_map]
      · rw [retryFrom_ok hf (n + 1)]
        simp [ha, range_one_map]

theorem retryFrom_zero_sleeps (f : Nat → Except FetchError APIResponse)
    (fuel : Nat) :
    (retryFrom f 0 fuel).2.2 = (List.range (retryFrom f 0 fuel).2.1).drop 1 := by
  rcases hf : f 0 with e | r
  · rcases hc : isClientError e
    · cases fuel with
      | zero =>
          rw [retryFrom_stop hf hc]
          simp
      | succ n =>
          rw [retryFrom_step hf hc n]
          simp only [if_true, List.nil_append]
          rw [retryFrom_sleeps_pos f n 1 (by omega)]
          rw [List.range_succ_eq_map]
          simp [Nat.succ_eq_add_one]
    · rw [retryFrom_client hf hc fuel]
      simp
  · rw [retryFrom_ok hf fuel]
    simp

theorem retryFrom_all_server_err (f : Nat → Except FetchError APIResponse)
    (H : ∀ i, ∃ s m ep, f i = .error (.apiError s m ep) ∧ 500 ≤ s) :
    ∀ (fuel attempt : Nat),
      (retryFrom f attempt fuel).2.1 = fuel + 1 ∧
      ∃ e, f (attempt + fuel) = .error e ∧
        (retryFrom f attempt fuel).1 = .error e := by
  intro fuel
  induction fuel with
  | zero =>
      intro attempt
      obtain ⟨s, m, ep, hf, hs⟩ := H attempt
      have hc : isClientError (.apiError s m ep) = false := by
        simp [isClientError]
        omega
      rw [retryFrom_stop hf hc]
      exact ⟨rfl, .apiError s m ep, by simpa using hf, rfl⟩
  | succ n ih =>
      intro attempt
      obtain ⟨s, m, ep, hf, hs⟩ := H attempt
      have hc : isClientError (.apiError s m ep) = false := by
        simp [isClientError]
        omega
      obtain ⟨ih1, e, ihe, ihres⟩ := ih (attempt + 1)
      rw [retryFrom_step hf hc n]
      refine ⟨by simpa using ih1, e, ?_, by simpa using ihres⟩
      rw [← ihe]
      congr 1
      omega

theorem fetchDevicesWithRetry_snd (f : Nat → Except FetchError APIResponse)
    (mr : Nat) :
    (fetchDevicesWithRetry f mr).2 = (retryFrom f 0 mr).2 := by
  rcases h : retryFrom f 0 mr with ⟨res, n, s⟩
  rcases res with e | r <;> simp [fetchDevicesWithRetry, h]

theorem retryFrom_client_stop (f : Nat → Except FetchError APIResponse) :
    ∀ (i attempt fuel : Nat), i ≤ fuel →
      (∀ j, j < i → ∃ e, f (attempt + j) = .error e ∧ isClientError e = false) →
      ∀ e, f (attempt + i) = .error e → isClientError e = true →
        (retryFrom f attempt fuel).2.1 = i + 1 := by
  intro i
  induction i with
  | zero =>
      intro attempt fuel _ _ e hf hc
      rw [Nat.add_zero] at hf
      rw [retryFrom_client hf hc fuel]
  | succ i ih =>
      intro attempt fuel hif hprev e hf hc
      obtain ⟨e0, hf0, hc0⟩ := hprev 0 (by omega)
      rw [Nat.add_zero] at hf0
      cases fuel with
      | zero => omega
      | succ fuel' =>
          rw [retryFrom_step hf0 hc0 fuel']
          have hprev' : ∀ j, j < i → ∃ e', f ((attempt + 1) + j) = .error e' ∧
              isClientError e' = false := by
            intro j hj
            obtain ⟨e', hf', hc'⟩ := hprev (j + 1) (by omega)
            refine ⟨e', ?_, hc'⟩
            rw [show attempt + 1 + j = attempt + (j + 1) by omega]
            exact hf'
          have hfi : f ((attempt + 1) + i) = .error e := by
            rw [show attempt + 1 + i = attempt + (i + 1) by omega]
            exact hf
          have hrec := ih (attempt + 1) fuel' (by omega) hprev' e hfi hc
          simp only []
          omega

/-- C2: `FetchDevicesWithRetry(maxRetries)` makes at most
`maxRetries + 1` calls to `FetchDevices`, sleeping `attempt` seconds
before the `attempt`-th retry (linearly increasing); if every call fails
with a 5xx `APIError` it makes exactly `maxRetries + 1` calls and
returns an error wrapping the last failure and naming `maxRetries + 1`
attempts; and whenever the loop reaches an attempt `i` whose call fails
with an `APIError` in the 400–499 range, it stops immediately with
exactly `i + 1` calls made — in particular a 404 on the first attempt
means exactly one call. -/
theorem c2_retry_backoff_policy :
    ∀ (f : Nat → Except FetchError APIResponse) (maxRetries : Nat),
      ((fetchDevicesWithRetry f maxRetries).2.1 ≤ maxRetries + 1) ∧
      ((fetchDevicesWithRetry f maxRetries).2.2 =
        (List.range (fetchDevicesWithRetry f maxRetries).2.1).drop 1) ∧
      ((∀ i, ∃ s m ep, f i = .error (.apiError s m ep) ∧ 500 ≤ s) →
        (fetchDevicesWithRetry f maxRetries).2.1 = maxRetries + 1 ∧
        ∃ e, f maxRetries = .error e ∧
          (fetchDevicesWithRetry f maxRetries).1 = .error (maxRetries + 1, e)) ∧
      (∀ i, i ≤ maxRetries →
        (∀ j, j < i → ∃ e, f j = .error e ∧ isClientError e = false) →
        ∀ s m ep, f i = .error (.apiError s m ep) → 400 ≤ s → s < 500 →
          (fetchDevicesWithRetry f maxRetries).2.1 = i + 1) := by
  intro f mr
  refine ⟨?_, ?_, ?_, ?_⟩
  · rw [fetchDevicesWithRetry_snd]
    exact retryFrom_calls_le f mr 0
  · rw [fetchDevicesWithRetry_snd]
    exact retryFrom_zero_sleeps f mr
  · intro H
    obtain ⟨h1, e, he, hres⟩ := retryFrom_all_server_err f H mr 0
    refine ⟨by rw [fetchDevicesWithRetry_snd]; exact h1, e, by simpa using he, ?_⟩
    rcases hr : retryFrom f 0 mr with ⟨res, n, sl⟩
    rw [hr] at hres
    simp only at hres
    rcases res with e' | r
    · simp only [Except.error.injEq] at hres
      subst hres
      simp [fetchDevicesWithRetry, hr]
    · simp at hres
  · intro i hi hprev s m ep hf h4 h5
    have hc : isClientError (.apiError s m ep) = true := by
      simp [isClientError]
      omega
    rw [fetchDevicesWithRetry_snd]
    exact retryFrom_client_stop f i 0 mr hi
      (fun j hj => by simpa using hprev j hj)
      (.apiError s m ep) (by simpa using hf) hc

theorem c2_retry_backoff_policy_witness :
    (fetchDevicesWithRetry
        (fun _ => .error (.apiError 503 "svc" "ep")) 2).2.1 = 3 ∧
    (fetchDevicesWithRetry
        (fun _ => .error (.apiError 503 "svc" "ep")) 2).1 =
      .error (3, .apiError 503 "svc" "ep") ∧
    (fetchDevicesWithRetry
        (fun _ => .error (.apiError 404 "nf" "ep")) 5).2.1 = 1 ∧
    (fetchDevicesWithRetry
        (fun i => if i = 0 then .error (.apiError 503 "svc" "ep")
          else .error (.apiError 418 "teapot" "ep")) 5).2.1 = 2 := by
  have H : ∀ i : Nat, ∃ s m ep,
      (fun _ : Nat =>
          (.error (.apiError 503 "svc" "ep") : Except FetchError APIResponse)) i =
        .error (.apiError s m ep) ∧ 500 ≤ s :=
    fun _ => ⟨503, "svc", "ep", rfl, by omega⟩
  obtain ⟨hc, e, he, hres⟩ :=
    (c2_retry_backoff_policy (fun _ => .error (.apiError 503 "svc" "ep")) 2).2.2.1 H
  have h404 :=
    (c2_retry_backoff_policy (fun _ => .error (.apiError 404 "nf" "ep")) 5).2.2.2
      0 (by omega) (fun j hj => absurd hj (by omega))
      404 "nf" "ep" rfl (by omega) (by omega)
  have h418 :=
    (c2_retry_backoff_policy
        (fun i => if i = 0 then .error (.apiError 503 "svc" "ep")
          else .error (.apiError 418 "teapot" "ep")) 5).2.2.2
      1 (by omega)
      (fun j hj =>
        ⟨.apiError 503 "svc" "ep", by rw [show j = 0 by omega]; rfl, by decide⟩)
      418 "teapot" "ep" rfl (by omega) (by omega)
  refine ⟨hc, ?_, h404, h418⟩
  injection he with he'
  rw [hres, ← he']

/-! ## Theorems: grouping engine -/

theorem lookupG_addDevice (acc : List GroupAcc) (d : PhysicalDevice) (k : String) :
    lookupG (addDevice acc d) k =
      if d.logicalDevice.id = k then
        match lookupG acc k with
        | some g => some { g with physicalDevices := g.physicalDevices ++ [d] }
        | none => some ⟨k, d.logicalDevice, [d]⟩
      else lookupG acc k := by
  induction acc with
  | nil =>
      by_cases hk : d.logicalDevice.id = k <;> simp [addDevice, lookupG, hk]
  | cons g gs ih =>
      by_cases hg : g.key = d.logicalDevice.id
      · by_cases hk : d.logicalDevice.id = k
        · have hgk : g.key = k := hg.trans hk
          simp [addDevice, lookupG, hg, hk, hgk]
        · have hgk : ¬g.key = k := fun h => hk (hg ▸ h)
          simp [addDevice, lookupG, hg, hk, hgk]
      · by_cases hk : d.logicalDevice.id = k
        · have hgk : ¬g.key = k := fun h => hg (h.trans hk.symm)
          simp [addDevice, lookupG, hg, hk, hgk, ih]
        · by_cases hgk : g.key = k
          · have hk2 : ¬k = d.logicalDevice.id := fun h => hk h.symm
            simp [addDevice, lookupG, hg, hk, hgk, hk2, ih]
          · simp [addDevice, lookupG, hg, hk, hgk, ih]

theorem lookupG_foldl (ds : List PhysicalDevice) :
    ∀ (acc : List GroupAcc) (k : String),
      lookupG (ds.foldl addDevice acc) k =
        match lookupG acc k with
        | some g => some { g with physicalDevices :=
            g.physicalDevices ++ ds.filter (fun d => d.logicalDevice.id == k) }
        | none =>
          match ds.filter (fun d => d.logicalDevice.id == k) with
          | [] => none
          | d :: tl => some ⟨k, d.logicalDevice, d :: tl⟩ := by
  induction ds with
  | nil =>
      intro acc k
      rcases h : lookupG acc k with _ | g <;> simp [h]
  | cons d0 ds ih =>
      intro acc k
      rw [List.foldl_cons, ih (addDevice acc d0) k, lookupG_addDevice]
      by_cases hk : d0.logicalDevice.id = k
      · have hb : (d0.logicalDevice.id == k) = true := by simp [hk]
        rcases h : lookupG acc k with _ | g
        · simp [hk, h, List.filter_cons, hb]
        · simp [hk, h, List.filter_cons, hb]
      · have hb : (d0.logicalDevice.id == k) = false := by simp [hk]
        rcases h : lookupG acc k with _ | g
        · simp [hk, h, List.filter_cons, hb]
        · simp [hk, h, List.filter_cons, hb]

theorem lookupG_isSome_iff (acc : List GroupAcc) (k : String) :
    (lookupG acc k).isSome ↔ k ∈ acc.map (fun g => g.key) := by
  induction acc with
  | nil => simp [lookupG]
  | cons g gs ih =>
      by_cases h : g.key = k
      · simp [lookupG, h]
      · have h2 : ¬k = g.key := fun he => h he.symm
        simp [lookupG, h, h2, ih]

theorem addDevice_keys (acc : List GroupAcc) (d : PhysicalDevice) :
    (addDevice acc d).map (fun g => g.key) =
      if (lookupG acc d.logicalDevice.id).isSome then acc.map (fun g => g.key)
      else acc.map (fun g => g.key) ++ [d.logicalDevice.id] := by
  induction acc with
  | nil => simp [addDevice, lookupG]
  | cons g gs ih =>
      by_cases h : g.key = d.logicalDevice.id
      · simp [addDevice, lookupG, h]
      · simp only [addDevice, h, if_false, List.map_cons, lookupG, ih]
        split <;> simp

theorem foldl_keys_nodup (ds : List PhysicalDevice) :
    ∀ acc : List GroupAcc, (acc.map (fun g => g.key)).Nodup →
      ((ds.foldl addDevice acc).map (fun g => g.key)).Nodup := by
  induction ds with
  | nil => intro acc h; simpa using h
  | cons d0 ds ih =>
      intro acc h
      rw [List.foldl_cons]
      apply ih
      rw [addDevice_keys]
      split
      · exact h
      · rename_i hns
        have hnotin : d0.logicalDevice.id ∉ acc.map (fun g => g.key) := by
          rw [← lookupG_isSome_iff]
          simpa using hns
        simp [List.nodup_append, h, hnotin]

theorem lookupG_of_mem :
    ∀ (acc : List GroupAcc), (acc.map (fun g => g.key)).Nodup →
      ∀ g ∈ acc, lookupG acc g.key = some g := by
  intro acc
  induction acc with
  | nil => simp
  | cons g0 gs ih =>
      intro hn g hg
      rw [List.map_cons, List.nodup_cons] at hn
      rcases List.mem_cons.1 hg with hg0 | hgs
      · subst hg0
        simp [lookupG]
      · have hne : ¬g0.key = g.key := by
          intro he
          exact hn.1 (he ▸ List.mem_map_of_mem (fun g => g.key) hgs)
        simp [lookupG, hne, ih hn.2 g hgs]

theorem addDevice_pred (P : GroupAcc → Prop)
    (acc : List GroupAcc) (d : PhysicalDevice)
    (hacc : ∀ g ∈ acc, P g)
    (hupd : ∀ g, P g → P { g with physicalDevices := g.physicalDevices ++ [d] })
    (hnew : P ⟨d.logicalDevice.id, d.logicalDevice, [d]⟩) :
    ∀ g ∈ addDevice acc d, P g := by
  induction acc with
  | nil => simpa [addDevice] using hnew
  | cons g0 gs ih =>
      by_cases h : g0.key = d.logicalDevice.id
      · intro g hg
        rw [addDevice, if_pos h] at hg
        rcases List.mem_cons.1 hg with hg0 | hgs
        · subst hg0
          exact hupd g0 (hacc g0 (by simp))
        · exact hacc g (List.mem_cons_of_mem _ hgs)
      · intro g hg
        rw [addDevice, if_neg h] at hg
        rcases List.mem_cons.1 hg with hg0 | hgs
        · subst hg0
          exact hacc g (by simp)
        · exact ih (fun g' hg' => hacc g' (List.mem_cons_of_mem _ hg')) g hgs

theorem foldl_key_id (ds : List PhysicalDevice) :
    ∀ acc : List GroupAcc, (∀ g ∈ acc, g.logicalDevice.id = g.key) →
      ∀ g ∈ ds.foldl addDevice acc, g.logicalDevice.id = g.key := by
  induction ds with
  | nil => intro acc h; simpa using h
  | cons d0 ds ih =>
      intro acc h
      rw [List.foldl_cons]
      apply ih
      exact addDevice_pred _ acc d0 h (fun g hp => hp) rfl

theorem addDevice_sum (acc : List GroupAcc) (d : PhysicalDevice) :
    ((addDevice acc d).map (fun g => g.physicalDevices.length)).sum =
      (acc.map (fun g => g.physicalDevices.length)).sum + 1 := by
  induction acc with
  | nil => simp [addDevice]
  | cons g gs ih =>
      by_cases h : g.key = d.logicalDevice.id <;>
        simp [addDevice, h, ih] <;> omega

theorem foldl_sum (ds : List PhysicalDevice) :
    ∀ acc : List GroupAcc,
      ((ds.foldl addDevice acc).map (fun g => g.physicalDevices.length)).sum =
        (acc.map (fun g => g.physicalDevices.length)).sum + ds.length := by
  induction ds with
  | nil => intro acc; simp
  | cons d0 ds ih =>
      intro acc
      rw [List.foldl_cons, ih, addDevice_sum]
      simp
      omega

theorem lookupG_mem : ∀ {acc : List GroupAcc} {k : String} {g : GroupAcc},
    lookupG acc k = some g → g ∈ acc := by
  intro acc
  induction acc with
  | nil => intro k g h; simp [lookupG] at h
  | cons g0 gs ih =>
      intro k g h
      rw [lookupG] at h
      by_cases h0 : g0.key = k
      · rw [if_pos h0] at h
        simp only [Option.some.injEq] at h
        exact h ▸ List.mem_cons_self g0 gs
      · rw [if_neg h0] at h
        exact List.mem_cons_of_mem _ (ih h)

theorem buildAcc_char (r : APIResponse) :
    ∀ g ∈ r.physicalDevices.foldl addDevice [],
      g.logicalDevice.id = g.key ∧
      g.physicalDevices =
        r.physicalDevices.filter (fun d => d.logicalDevice.id == g.key) ∧
      (r.physicalDevices.filter (fun d => d.logicalDevice.id == g.key)).head?.map
          (fun d => d.logicalDevice) = some g.logicalDevice := by
  intro g hg
  have hkeyid := foldl_key_id r.physicalDevices [] (by simp) g hg
  have hn := foldl_keys_nodup r.physicalDevices [] (by simp)
  have hl := lookupG_of_mem _ hn g hg
  rw [lookupG_foldl] at hl
  simp only [lookupG] at hl
  rcases hfil : r.physicalDevices.filter (fun d => d.logicalDevice.id == g.key)
    with _ | ⟨d, tl⟩ <;> rw [hfil] at hl
  · simp at hl
  · simp only [Option.some.injEq] at hl
    have h1 : g.physicalDevices = d :: tl := by rw [← hl]
    have h2 : g.logicalDevice = d.logicalDevice := by rw [← hl]
    refine ⟨hkeyid, ?_, ?_⟩
    · rw [h1, hfil]
    · rw [hfil, h2]
      simp

theorem isStandby_false_of_active {d : PhysicalDevice}
    (h : isActiveNode d = true) : isStandbyNode d = false := by
  unfold isActiveNode at h
  unfold isStandbyNode
  cases hd : d.asNode with
  | none => rw [hd] at h
  | some n =>
      rw [hd] at h
      simp at h
      simp [h]

theorem getLast?_cons_or {α : Type} (d : α) (l : List α) (a : Option α) :
    ((d :: l).getLast?).or a = (l.getLast?).or (some d) := by
  cases l with
  | nil => simp [Option.or]
  | cons x xs =>
      rw [List.getLast?_cons_cons]
      rcases ho : (x :: xs).getLast? with _ | z
      · have h : (x :: xs).getLast?.isSome := List.getLast?_isSome.2 (by simp)
        rw [ho] at h
        simp at h
      · simp [Option.or]

theorem foldl_scanNode (l : List PhysicalDevice) :
    ∀ (a : Option PhysicalDevice) (s : List PhysicalDevice),
      l.foldl scanNode (a, s) =
        (((l.filter isActiveNode).getLast?).or a,
          s ++ l.filter isStandbyNode) := by
  induction l with
  | nil =>
      intro a s
      simp [Option.or]
  | cons d t ih =>
      intro a s
      rw [List.foldl_cons]
      by_cases hact : isActiveNode d = true
      · have hstd := isStandby_false_of_active hact
        rw [show scanNode (a, s) d = (some d, s) by simp [scanNode, hact]]
        rw [ih]
        rw [List.filter_cons, List.filter_cons]
        simp only [hact, hstd, if_true, if_false, Bool.false_eq_true]
        rw [getLast?_cons_or]
      · by_cases hstd : isStandbyNode d = true
        · rw [show scanNode (a, s) d = (a, s ++ [d]) by simp [scanNode, hact, hstd]]
          rw [ih]
          rw [List.filter_cons, List.filter_cons]
          simp only [hact, hstd, if_true, if_false, Bool.false_eq_true]
          simp
        · rw [show scanNode (a, s) d = (a, s) by simp [scanNode, hact, hstd]]
          rw [ih]
          rw [List.filter_cons, List.filter_cons]
          simp only [hact, hstd, Bool.false_eq_true, if_false]

theorem finalizeGroup_fields (g : GroupAcc) :
    (finalizeGroup g).logicalDevice = g.logicalDevice ∧
    (finalizeGroup g).physicalDevices = g.physicalDevices ∧
    (finalizeGroup g).isCluster = isClusterTopology g.logicalDevice :=
  ⟨rfl, rfl, rfl⟩

theorem finalizeGroup_cluster (g : GroupAcc)
    (h : isClusterTopology g.logicalDevice = true) :
    (finalizeGroup g).activeNode =
      (g.physicalDevices.filter isActiveNode).getLast? ∧
    (finalizeGroup g).standbyNodes =
      g.physicalDevices.filter isStandbyNode := by
  unfold finalizeGroup
  simp only [h, if_true]
  rw [foldl_scanNode]
  constructor
  · simp only []
    cases (g.physicalDevices.filter isActiveNode).getLast? <;> simp [Option.or]
  · simp

theorem finalizeGroup_noncluster (g : GroupAcc)
    (h : isClusterTopology g.logicalDevice = false) :
    (finalizeGroup g).activeNode = none ∧
    (finalizeGroup g).standbyNodes = [] := by
  unfold finalizeGroup
  simp [h]

theorem c3_counterexample :
    ((groupDevicesByLogicalDevice respTwoActive 0).logicalDeviceGroups.map
        (fun g => g.activeNode)) = [some devB] ∧
    ((groupDevicesByLogicalDevice respTwoActive 0).logicalDeviceGroups.map
        (fun g => (g.physicalDevices.filter isActiveNode).head?)) = [some devA] ∧
    ((groupDevicesByLogicalDevice respTwoActive 0).logicalDeviceGroups.map
        (fun g => g.isCluster)) = [true] ∧
    devA ≠ devB := by
  refine ⟨rfl, rfl, rfl, by decide⟩

/-- C3 (amended): in every group produced by
`GroupDevicesByLogicalDevice`, if the cluster flag is true the
designated active node is the last member in fetch order whose node
role is active (the Go loop overwrites `ActiveNode` on each match, so
the last active member wins, not the first; at most one member is
designated), the standby list is exactly the members with the standby
role in fetch order, and members with neither role receive no
designation; if the cluster flag is false no designation is made. -/
theorem c3_cluster_node_designation :
    ∀ (r : APIResponse) (now : Nat),
      ∀ g ∈ (groupDevicesByLogicalDevice r now).logicalDeviceGroups,
        (g.isCluster = true →
          g.activeNode = (g.physicalDevices.filter isActiveNode).getLast? ∧
          g.standbyNodes = g.physicalDevices.filter isStandbyNode) ∧
        (g.isCluster = false →
          g.activeNode = none ∧ g.standbyNodes = []) := by
  intro r now g hg
  simp only [groupDevicesByLogicalDevice, List.mem_map] at hg
  obtain ⟨ga, hga, rfl⟩ := hg
  constructor
  · intro hc
    have hct : isClusterTopology ga.logicalDevice = true := by
      rw [← (finalizeGroup_fields ga).2.2]
      exact hc
    have hres := finalizeGroup_cluster ga hct
    rwa [← (finalizeGroup_fields ga).2.1] at hres
  · intro hc
    have hct : isClusterTopology ga.logicalDevice = false := by
      rw [← (finalizeGroup_fields ga).2.2]
      exact hc
    exact finalizeGroup_noncluster ga hct

theorem c3_cluster_node_designation_witness :
    gClusterFix ∈ (groupDevicesByLogicalDevice respMixed 0).logicalDeviceGroups ∧
    gClusterFix.isCluster = true ∧
    gClusterFix.activeNode =
      (gClusterFix.physicalDevices.filter isActiveNode).getLast? ∧
    gClusterFix.standbyNodes =
      gClusterFix.physicalDevices.filter isStandbyNode := by
  have hmem : gClusterFix ∈
      (groupDevicesByLogicalDevice respMixed 0).logicalDeviceGroups := by decide
  have h := (c3_cluster_node_designation respMixed 0 gClusterFix hmem).1 rfl
  exact ⟨hmem, rfl, h.1, h.2⟩

/-- C4: the grouping engine partitions the devices: member counts sum to
the input length, each group's member list is exactly the input filtered
to that group's logical-device id (hence fetch order is preserved and
each member's id matches its group), group ids are pairwise distinct,
and every input device occurs in some group. -/
theorem c4_grouping_partition :
    ∀ (r : APIResponse) (now : Nat),
      (((groupDevicesByLogicalDevice r now).logicalDeviceGroups.map
          (fun g => g.physicalDevices.length)).sum =
        r.physicalDevices.length) ∧
      (∀ g ∈ (groupDevicesByLogicalDevice r now).logicalDeviceGroups,
        g.physicalDevices =
          r.physicalDevices.filter
            (fun d => d.logicalDevice.id == g.logicalDevice.id)) ∧
      (((groupDevicesByLogicalDevice r now).logicalDeviceGroups.map
          (fun g => g.logicalDevice.id)).Nodup) ∧
      (∀ d ∈ r.physicalDevices,
        ∃ g ∈ (groupDevicesByLogicalDevice r now).logicalDeviceGroups,
          d ∈ g.physicalDevices) := by
  intro r now
  refine ⟨?_, ?_, ?_, ?_⟩
  · simp only [groupDevicesByLogicalDevice, List.map_map]
    have hmc : ∀ ga ∈ r.physicalDevices.foldl addDevice [],
        ((fun g => g.physicalDevices.length) ∘ finalizeGroup) ga =
          (fun g : GroupAcc => g.physicalDevices.length) ga := by
      intro ga _
      simp [Function.comp, (finalizeGroup_fields ga).2.1]
    rw [List.map_congr_left hmc, foldl_sum]
    simp
  · intro g hg
    simp only [groupDevicesByLogicalDevice, List.mem_map] at hg
    obtain ⟨ga, hga, rfl⟩ := hg
    have hc := buildAcc_char r ga hga
    rw [(finalizeGroup_fields ga).2.1, (finalizeGroup_fields ga).1, hc.1]
    exact hc.2.1
  · simp only [groupDevicesByLogicalDevice, List.map_map]
    have hmc : ∀ ga ∈ r.physicalDevices.foldl addDevice [],
        ((fun g => g.logicalDevice.id) ∘ finalizeGroup) ga =
          (fun g : GroupAcc => g.key) ga := by
      intro ga hga
      simp [Function.comp, (finalizeGroup_fields ga).1,
        (buildAcc_char r ga hga).1]
    rw [List.map_congr_left hmc]
    exact foldl_keys_nodup r.physicalDevices [] (by simp)
  · intro d hd
    have hfl := lookupG_foldl r.physicalDevices [] d.logicalDevice.id
    simp only [lookupG] at hfl
    have hdin : d ∈ r.physicalDevices.filter
        (fun d' => d'.logicalDevice.id == d.logicalDevice.id) := by
      rw [List.mem_filter]
      exact ⟨hd, by simp⟩
    rcases hfil : r.physicalDevices.filter
        (fun d' => d'.logicalDevice.id == d.logicalDevice.id) with _ | ⟨d0, tl⟩
    · rw [hfil] at hdin
      simp at hdin
    · rw [hfil] at hfl hdin
      have hmem := lookupG_mem hfl
      refine ⟨finalizeGroup ⟨d.logicalDevice.id, d0.logicalDevice, d0 :: tl⟩,
        ?_, ?_⟩
      · simp only [groupDevicesByLogicalDevice, List.mem_map]
        exact ⟨_, hmem, rfl⟩
      · rw [(finalizeGroup_fields _).2.1]
        exact hdin

theorem c4_grouping_partition_witness :
    gClusterFix ∈ (groupDevicesByLogicalDevice respMixed 0).logicalDeviceGroups ∧
    (((groupDevicesByLogicalDevice respMixed 0).logicalDeviceGroups.map
        (fun g => g.physicalDevices.length)).sum =
      respMixed.physicalDevices.length) ∧
    gClusterFix.physicalDevices =
      respMixed.physicalDevices.filter
        (fun d => d.logicalDevice.id == gClusterFix.logicalDevice.id) := by
  have hmem : gClusterFix ∈
      (groupDevicesByLogicalDevice respMixed 0).logicalDeviceGroups := by decide
  exact ⟨hmem, (c4_grouping_partition respMixed 0).1,
    (c4_grouping_partition respMixed 0).2.1 gClusterFix hmem⟩

theorem c5_counterexample :
    groupDevicesByLogicalDevice respTwoActive 0 ≠
      groupDevicesByLogicalDevice respTwoActive 1 := by
  decide

theorem filterMap_getElem_range {α : Type} (l : List α) :
    (List.range l.length).filterMap (fun i => l[i]?) = l := by
  induction l with
  | nil => simp
  | cons x xs ih =>
      rw [List.length_cons, List.range_succ_eq_map, List.filterMap_cons,
        List.filterMap_map]
      have hfun : ((fun i => (x :: xs)[i]?) ∘ Nat.succ) = (fun i => xs[i]?) := by
        funext i
        simp
      rw [hfun, ih]
      simp

/-- C5 (amended): two calls of the grouping function on the same input
agree on the total and produce group lists that are permutations of each
other, whatever iteration order Go's randomized map traversal picks for
each call; the insertion-order model is one admissible order.  The
outputs need not be structurally equal: `LastUpdated` embeds
`time.Now()` and the group order follows the randomized iteration, so
only the collection of groups and the total are a deterministic function
of the input. -/
theorem c5_group_deterministic :
    ∀ (r : APIResponse) (t1 t2 : Nat) (ord1 ord2 : List Nat),
      ord1.Perm (List.range (r.physicalDevices.foldl addDevice []).length) →
      ord2.Perm (List.range (r.physicalDevices.foldl addDevice []).length) →
      ((groupDevicesInOrder r t1 ord1).logicalDeviceGroups.Perm
        (groupDevicesInOrder r t2 ord2).logicalDeviceGroups ∧
      (groupDevicesInOrder r t1 ord1).totalDevices =
        (groupDevicesInOrder r t2 ord2).totalDevices ∧
      groupDevicesByLogicalDevice r t1 =
        groupDevicesInOrder r t1
          (List.range (r.physicalDevices.foldl addDevice []).length)) := by
  intro r t1 t2 ord1 ord2 h1 h2
  have hfm : ∀ ord : List Nat,
      ord.Perm (List.range (r.physicalDevices.foldl addDevice []).length) →
      (ord.filterMap
          (fun i => (r.physicalDevices.foldl addDevice [])[i]?)).Perm
        (r.physicalDevices.foldl addDevice []) := by
    intro ord hp
    have := hp.filterMap (fun i => (r.physicalDevices.foldl addDevice [])[i]?)
    rwa [filterMap_getElem_range] at this
  refine ⟨?_, rfl, ?_⟩
  · exact ((hfm ord1 h1).trans (hfm ord2 h2).symm).map finalizeGroup
  · show groupDevicesByLogicalDevice r t1 = _
    unfold groupDevicesByLogicalDevice groupDevicesInOrder
    rw [filterMap_getElem_range]

theorem c5_group_deterministic_witness :
    ([0, 1] : List Nat).Perm
      (List.range (respMixed.physicalDevices.foldl addDevice []).length) ∧
    ([1, 0] : List Nat).Perm
      (List.range (respMixed.physicalDevices.foldl addDevice []).length) ∧
    (groupDevicesInOrder respMixed 0 [0, 1]).logicalDeviceGroups.Perm
      (groupDevicesInOrder respMixed 1 [1, 0]).logicalDeviceGroups ∧
    groupDevicesByLogicalDevice respMixed 0 =
      groupDevicesInOrder respMixed 0
        (List.range (respMixed.physicalDevices.foldl addDevice []).length) := by
  have h1 : ([0, 1] : List Nat).Perm
      (List.range (respMixed.physicalDevices.foldl addDevice []).length) := by
    decide
  have h2 : ([1, 0] : List Nat).Perm
      (List.range (respMixed.physicalDevices.foldl addDevice []).length) := by
    decide
  have h := c5_group_deterministic respMixed 0 1 [0, 1] [1, 0] h1 h2
  exact ⟨h1, h2, h.1, h.2.2⟩

/-- C10: the `LogicalDevice` record carried by a group is that of the
first device (in fetch order) with the group's logical-device id, and
the cluster flag is derived from that record alone. -/
theorem c10_group_uses_first_device_record :
    ∀ (r : APIResponse) (now : Nat),
      ∀ g ∈ (groupDevicesByLogicalDevice r now).logicalDeviceGroups,
        (r.physicalDevices.filter
            (fun d => d.logicalDevice.id == g.logicalDevice.id)).head?.map
          (fun d => d.logicalDevice) = some g.logicalDevice ∧
        g.isCluster = isClusterTopology g.logicalDevice := by
  intro r now g hg
  simp only [groupDevicesByLogicalDevice, List.mem_map] at hg
  obtain ⟨ga, hga, rfl⟩ := hg
  have hc := buildAcc_char r ga hga
  constructor
  · rw [(finalizeGroup_fields ga).1, hc.1]
    exact hc.2.2
  · rw [(finalizeGroup_fields ga).1]
    exact (finalizeGroup_fields ga).2.2

theorem c10_group_uses_first_device_record_witness :
    devA.logicalDevice ≠ devBConflict.logicalDevice ∧
    devA.logicalDevice.id = devBConflict.logicalDevice.id ∧
    gConflictFix ∈ (groupDevicesByLogicalDevice respConflict 0).logicalDeviceGroups ∧
    (respConflict.physicalDevices.filter
        (fun d => d.logicalDevice.id == gConflictFix.logicalDevice.id)).head?.map
      (fun d => d.logicalDevice) = some gConflictFix.logicalDevice := by
  have hmem : gConflictFix ∈
      (groupDevicesByLogicalDevice respConflict 0).logicalDeviceGroups := by decide
  exact ⟨by decide, by decide, hmem,
    (c10_group_uses_first_device_record respConflict 0 gConflictFix hmem).1⟩

/-! ## Theorems: display manager -/

/-- C7: a `Render` call with a non-nil error leaves the retained
snapshot and its timestamp untouched and draws it, with its original
timestamp, beneath the error banner; `lastData` is replaced only by a
`Render` call with a nil error, so across any sequence of failed renders
the displayed snapshot stays the most recent successful one. -/
theorem c7_render_retains_last_data :
    ∀ (st : DisplayState) (data : Option GroupedDevices) (e : String),
      ((render st data (some e)).1.lastData = st.lastData) ∧
      (e ≠ "" → ∀ gd, st.lastData = some gd →
        (render st data (some e)).2 =
          .errorBanner e (some (gd.lastUpdated, gd))) ∧
      (∀ d, (render st d none).1.lastData = d) ∧
      (∀ calls, (∀ c ∈ calls, ∃ m, c.2 = some m) →
        (renderSeq st calls).lastData = st.lastData) := by
  intro st data e
  refine ⟨rfl, ?_, fun d => rfl, ?_⟩
  · intro he gd hgd
    simp [render, he, hgd]
  · intro calls
    induction calls generalizing st with
    | nil => intro _; rfl
    | cons c cs ih =>
        intro h
        obtain ⟨m, hm⟩ := h c (by simp)
        have hstep : ((render st c.1 c.2).1).lastData = st.lastData := by
          rw [hm]
          rfl
        rw [renderSeq, List.foldl_cons]
        have := ih (render st c.1 c.2).1 (fun c' hc' => h c' (by simp [hc']))
        rw [renderSeq] at this
        rw [this, hstep]

theorem c7_render_retains_last_data_witness :
    ("boom" : String) ≠ "" ∧
    dstSnap.lastData = some gdSnap ∧
    (render dstSnap none (some "boom")).1.lastData = some gdSnap ∧
    (render dstSnap none (some "boom")).2 =
      .errorBanner "boom" (some (42, gdSnap)) ∧
    (render dstSnap (some gdSnap) none).1.lastData = some gdSnap ∧
    (renderSeq dstSnap [(none, some "a"), (none, some "b")]).lastData =
      some gdSnap := by
  have h := c7_render_retains_last_data dstSnap none "boom"
  refine ⟨by decide, rfl, h.1, ?_, h.2.2.1 (some gdSnap), ?_⟩
  · have hb := h.2.1 (by decide) gdSnap rfl
    simpa using hb
  · exact (c7_render_retains_last_data dstSnap none "x").2.2.2
      [(none, some "a"), (none, some "b")]
      (by intro c hc
          fin_cases hc
          · exact ⟨"a", rfl⟩
          · exact ⟨"b", rfl⟩)

/-! ## Theorems: ANSI-aware text metrics -/

theorem stripColorsFuel_stable :
    ∀ (f1 : Nat) (l : List Nat), l.length ≤ f1 → ∀ (f2 : Nat), l.length ≤ f2 →
      stripColorsFuel f1 l = stripColorsFuel f2 l := by
  intro f1
  induction f1 with
  | zero =>
      intro l hl f2 _
      match l, hl with
      | [], _ => cases f2 <;> rfl
  | succ n ih =>
      intro l hl f2 hl2
      match l with
      | [] => cases f2 <;> rfl
      | b :: r =>
          match f2 with
          | 0 => simp at hl2
          | f2' + 1 =>
              show stripColorsFuel (n + 1) (b :: r) = stripColorsFuel (f2' + 1) (b :: r)
              rw [stripColorsFuel, stripColorsFuel]
              rcases ht : tryAnsi (b :: r) with _ | ⟨code, rest⟩
              · simp only []
                have hr : r.length ≤ n := by simp at hl; omega
                have hr2 : r.length ≤ f2' := by simp at hl2; omega
                rw [ih r hr f2' hr2]
              · simp only []
                have hlen := tryAnsi_rest_lt ht
                have hr : rest.length ≤ n := by simp at hl hlen ⊢; omega
                have hr2 : rest.length ≤ f2' := by simp at hl2 hlen ⊢; omega
                rw [ih rest hr f2' hr2]

theorem stripColors_of_some {l code rest : List Nat}
    (h : tryAnsi l = some (code, rest)) :
    stripColors l = stripColors rest := by
  match l with
  | [] => simp [tryAnsi] at h
  | b :: r =>
      show stripColorsFuel (b :: r).length (b :: r) = stripColors rest
      rw [show (b :: r).length = r.length + 1 by simp, stripColorsFuel, h]
      simp only []
      have hlen := tryAnsi_rest_lt h
      simp only [List.length_cons] at hlen
      exact stripColorsFuel_stable r.length rest (by omega) rest.length (le_refl _)

theorem stripColors_cons_none {b : Nat} {r : List Nat}
    (h : tryAnsi (b :: r) = none) :
    stripColors (b :: r) = b :: stripColors r := by
  show stripColorsFuel (b :: r).length (b :: r) = b :: stripColors r
  rw [show (b :: r).length = r.length + 1 by simp, stripColorsFuel, h]
  rfl

theorem tryAnsi_none_of_ne27 {b : Nat} (hb : b ≠ 27) (t : List Nat) :
    tryAnsi (b :: t) = none := by
  match t with
  | [] => rfl
  | c :: r => simp [tryAnsi, hb]

theorem spanParam_params (l : List Nat) :
    ∀ b ∈ (spanParam l).1, isParamByte b = true := by
  induction l with
  | nil => simp [spanParam]
  | cons b r ih =>
      by_cases h : isParamByte b = true
      · simp only [spanParam, h, if_true]
        intro x hx
        rcases List.mem_cons.1 hx with hx0 | hxs
        · exact hx0 ▸ h
        · exact ih x hxs
      · simp [spanParam, h]

theorem tryAnsi_isCode {l code rest : List Nat}
    (h : tryAnsi l = some (code, rest)) : IsAnsiCode code := by
  match l with
  | [] => simp [tryAnsi] at h
  | [b] => simp [tryAnsi] at h
  | b :: c :: r =>
      by_cases hbc : b = 27 ∧ c = 91
      · obtain ⟨hb, hc⟩ := hbc
        subst hb; subst hc
        rcases hsp : spanParam r with ⟨ps, rs⟩
        rcases rs with _ | ⟨ch, r2⟩
        · simp [tryAnsi, hsp] at h
        · by_cases hal : isAlphaByte ch
          · simp only [tryAnsi, hsp, hal, if_true, and_self, Option.some.injEq,
              Prod.mk.injEq] at h
            obtain ⟨hcode, _⟩ := h
            refine ⟨ps, ch, hcode.symm, ?_, hal⟩
            have := spanParam_params r
            rw [hsp] at this
            exact this
          · simp [tryAnsi, hsp, hal] at h
      · simp [tryAnsi, hbc] at h

theorem alpha_not_param {b : Nat} (h : isAlphaByte b = true) :
    isParamByte b = false := by
  simp [isAlphaByte] at h
  simp [isParamByte]
  omega

theorem spanParam_of_params {ps : List Nat} (hps : ∀ b ∈ ps, isParamByte b = true)
    {x : Nat} (hx : isParamByte x = false) (rest : List Nat) :
    spanParam (ps ++ x :: rest) = (ps, x :: rest) := by
  induction ps with
  | nil => simp [spanParam, hx]
  | cons p ps' ih =>
      have hp : isParamByte p = true := hps p (by simp)
      simp only [List.cons_append, spanParam, hp, if_true, List.append_eq]
      rw [ih (fun b hb => hps b (by simp [hb]))]

theorem tryAnsi_code_head {c : List Nat} (hc : IsAnsiCode c) (rest : List Nat) :
    tryAnsi (c ++ rest) = some (c, rest) := by
  obtain ⟨ps, ch, heq, hps, hal⟩ := hc
  subst heq
  have hsp := spanParam_of_params hps (alpha_not_param hal) rest
  simp only [List.cons_append, List.append_assoc, List.cons_append, List.nil_append]
  simp [tryAnsi, hsp, hal]

theorem stripColors_code_append {c : List Nat} (hc : IsAnsiCode c)
    (rest : List Nat) :
    stripColors (c ++ rest) = stripColors rest :=
  stripColors_of_some (tryAnsi_code_head hc rest)

theorem stripColors_no_esc_append {a : List Nat} (ha : ∀ b ∈ a, b ≠ 27)
    (rest : List Nat) :
    stripColors (a ++ rest) = a ++ stripColors rest := by
  induction a with
  | nil => simp
  | cons b a' ih =>
      have hb : b ≠ 27 := ha b (by simp)
      rw [List.cons_append,
        stripColors_cons_none (tryAnsi_none_of_ne27 hb (a' ++ rest)),
        ih (fun x hx => ha x (by simp [hx]))]
      rfl

theorem code_tail_ne27 {c : List Nat} (hc : IsAnsiCode c) :
    ∀ b ∈ c.drop 1, b ≠ 27 := by
  obtain ⟨ps, ch, heq, hps, hal⟩ := hc
  subst heq
  intro b hb
  simp only [List.drop_succ_cons, List.drop_zero] at hb
  rcases List.mem_cons.1 hb with h91 | hrest
  · omega
  · rcases List.mem_append.1 hrest with hp | hch
    · have := hps b hp
      simp [isParamByte] at this
      omega
    · simp at hch
      subst hch
      simp [isAlphaByte] at hal
      omega

theorem stripColors_append_le :
    ∀ (n : Nat) (x : List Nat), x.length ≤ n → ∀ (y : List Nat),
      (stripColors (x ++ y)).length ≤ x.length + (stripColors y).length := by
  intro n
  induction n with
  | zero =>
      intro x hx y
      match x, hx with
      | [], _ => simp
  | succ n ih =>
      intro x hx y
      match x with
      | [] => simp
      | b :: x' =>
          rcases ht : tryAnsi ((b :: x') ++ y) with _ | ⟨code, rest⟩
          · rw [List.cons_append] at ht ⊢
            rw [stripColors_cons_none ht]
            have hx' : x'.length ≤ n := by simp at hx; omega
            have := ih x' hx' y
            simp only [List.length_cons]
            omega
          · obtain ⟨heq, hcode3⟩ := tryAnsi_some ht
            have hic := tryAnsi_isCode ht
            rw [stripColors_of_some ht]
            by_cases hlen : code.length ≤ (b :: x').length
            · have hrest : rest = (b :: x').drop code.length ++ y := by
                have hd := congrArg (List.drop code.length) heq
                rw [List.drop_append_of_le_length hlen, List.drop_left] at hd
                exact hd.symm
              rw [hrest]
              have hdl : ((b :: x').drop code.length).length ≤ n := by
                simp only [List.length_drop, List.length_cons]
                simp only [List.length_cons] at hx
                omega
              have := ih _ hdl y
              have hdl2 : ((b :: x').drop code.length).length ≤ (b :: x').length := by
                simp [List.length_drop]
              omega
            · push_neg at hlen
              have hxlen : (b :: x').length ≤ code.length := le_of_lt hlen
              have hxeq : b :: x' = code.take (b :: x').length := by
                have hT := congrArg (List.take (b :: x').length) heq
                rw [List.take_left, List.take_append_of_le_length hxlen] at hT
                exact hT
              have hyeq : y = code.drop (b :: x').length ++ rest := by
                have hD := congrArg (List.drop (b :: x').length) heq
                rw [List.drop_left, List.drop_append_of_le_length hxlen] at hD
                exact hD
              have hm27 : ∀ u ∈ code.drop (b :: x').length, u ≠ 27 := by
                intro u hu
                apply code_tail_ne27 hic
                have h1 : (b :: x').length = 1 + x'.length := by
                  simp
                  omega
                rw [h1, ← List.drop_drop] at hu
                exact List.mem_of_mem_drop hu
              have hy : stripColors y =
                  code.drop (b :: x').length ++ stripColors rest := by
                rw [hyeq]
                exact stripColors_no_esc_append hm27 rest
              have hylen : (stripColors y).length =
                  (code.drop (b :: x').length).length + (stripColors rest).length := by
                rw [hy]
                simp
              omega

theorem stripColors_length_le (l : List Nat) :
    (stripColors l).length ≤ l.length := by
  have := stripColors_append_le l.length l (le_refl _) []
  simpa using this

theorem runeCountFuel_stable :
    ∀ (f1 : Nat) (l : List Nat), l.length ≤ f1 → ∀ (f2 : Nat), l.length ≤ f2 →
      runeCountFuel f1 l = runeCountFuel f2 l := by
  intro f1
  induction f1 with
  | zero =>
      intro l hl f2 _
      match l, hl with
      | [], _ => cases f2 <;> rfl
  | succ n ih =>
      intro l hl f2 hl2
      match l with
      | [] => cases f2 <;> rfl
      | c :: r =>
          match f2 with
          | 0 => simp at hl2
          | f2' + 1 =>
              rw [runeCountFuel, runeCountFuel]
              have hd : (r.drop (runeAdvance c r)).length ≤ r.length := by
                simp [List.length_drop]
              simp only [List.length_cons] at hl hl2
              rw [ih (r.drop (runeAdvance c r)) (by omega) f2' (by omega)]

theorem runeCount_cons (c : Nat) (r : List Nat) :
    runeCount (c :: r) = 1 + runeCount (r.drop (runeAdvance c r)) := by
  show runeCountFuel (c :: r).length (c :: r) = _
  rw [show (c :: r).length = r.length + 1 by simp, runeCountFuel]
  have hd : (r.drop (runeAdvance c r)).length ≤ r.length := by
    simp [List.length_drop]
  rw [runeCountFuel_stable r.length _ (by omega) (r.drop (runeAdvance c r)).length
    (le_refl _)]
  rfl

theorem runeCount_le_length : ∀ (n : Nat) (l : List Nat), l.length ≤ n →
    runeCount l ≤ l.length := by
  intro n
  induction n with
  | zero =>
      intro l hl
      match l, hl with
      | [], _ => simp [runeCount, runeCountFuel]
  | succ n ih =>
      intro l hl
      match l with
      | [] => simp [runeCount, runeCountFuel]
      | c :: r =>
          rw [runeCount_cons]
          have hd : (r.drop (runeAdvance c r)).length ≤ r.length := by
            simp [List.length_drop]
          simp only [List.length_cons] at hl
          have := ih (r.drop (runeAdvance c r)) (by omega)
          simp only [List.length_cons]
          omega

theorem scanAnsiFuel_codes :
    ∀ (fuel : Nat) (l : List Nat), ∀ c ∈ (scanAnsiFuel fuel l).2, IsAnsiCode c := by
  intro fuel
  induction fuel with
  | zero => intro l c hc; simp [scanAnsiFuel] at hc
  | succ n ih =>
      intro l c hc
      match l with
      | [] => simp [scanAnsiFuel] at hc
      | b :: r =>
          rw [scanAnsiFuel] at hc
          rcases ht : tryAnsi (b :: r) with _ | ⟨code, rest⟩ <;> rw [ht] at hc
          · simp only [] at hc
            rcases hs : (scanAnsiFuel n r).1 with _ | ⟨p, ps⟩ <;> rw [hs] at hc <;>
              simp only [] at hc <;> exact ih r c hc
          · simp only [List.mem_cons] at hc
            rcases hc with hc0 | hcs
            · exact hc0 ▸ tryAnsi_isCode ht
            · exact ih rest c hcs

theorem scanAnsi_codes (l : List Nat) :
    ∀ c ∈ (scanAnsi l).2, IsAnsiCode c :=
  scanAnsiFuel_codes l.length l


theorem buildTrunc_stop (p : List Nat) (ps cs : List (List Nat))
    {target textLen : Nat} (hstop : target ≤ textLen) :
    buildTrunc (p :: ps) cs target textLen = [] := by
  rcases cs with _ | ⟨c, cs'⟩ <;> rw [buildTrunc, if_pos hstop]

theorem buildTrunc_take (p : List Nat) (ps cs : List (List Nat))
    {target textLen : Nat} (hstop : ¬target ≤ textLen)
    (hfit : ¬p.length ≤ target - textLen) :
    buildTrunc (p :: ps) cs target textLen = p.take (target - textLen) := by
  rcases cs with _ | ⟨c, cs'⟩ <;> rw [buildTrunc, if_neg hstop, if_neg hfit]

theorem buildTrunc_strip_le :
    ∀ (ps cs : List (List Nat)), (∀ c ∈ cs, IsAnsiCode c) →
      ∀ (target textLen : Nat) (tail : List Nat),
        (stripColors (buildTrunc ps cs target textLen ++ tail)).length ≤
          (target - textLen) + (stripColors tail).length := by
  intro ps
  induction ps with
  | nil =>
      intro cs hcs target textLen tail
      simp only [buildTrunc, List.nil_append]
      omega
  | cons p ps' ih =>
      intro cs hcs target textLen tail
      by_cases hstop : target ≤ textLen
      · rw [buildTrunc_stop p ps' cs hstop]
        simp only [List.nil_append]
        omega
      · by_cases hfit : p.length ≤ target - textLen
        · rcases cs with _ | ⟨c, cs'⟩
          · rw [show buildTrunc (p :: ps') [] target textLen =
                p ++ buildTrunc ps' [] target (textLen + p.length) by
              rw [buildTrunc, if_neg hstop, if_pos hfit]]
            rw [List.append_assoc]
            have h1 := stripColors_append_le p.length p (le_refl _)
              (buildTrunc ps' [] target (textLen + p.length) ++ tail)
            have h2 := ih [] (by simp) target (textLen + p.length) tail
            omega
          · rw [show buildTrunc (p :: ps') (c :: cs') target textLen =
                p ++ (c ++ buildTrunc ps' cs' target (textLen + p.length)) by
              rw [buildTrunc, if_neg hstop, if_pos hfit]]
            rw [List.append_assoc, List.append_assoc]
            have h1 := stripColors_append_le p.length p (le_refl _)
              (c ++ (buildTrunc ps' cs' target (textLen + p.length) ++ tail))
            have hc : IsAnsiCode c := hcs c (by simp)
            have h3 := stripColors_code_append hc
              (buildTrunc ps' cs' target (textLen + p.length) ++ tail)
            have h2 := ih cs' (fun c' hc' => hcs c' (by simp [hc'])) target
              (textLen + p.length) tail
            rw [h3] at h1
            omega
        · rw [buildTrunc_take p ps' cs hstop hfit]
          have h1 := stripColors_append_le (p.take (target - textLen)).length
            (p.take (target - textLen)) (le_refl _) tail
          have h4 : (p.take (target - textLen)).length ≤ target - textLen := by
            simp
          omega

theorem displayWidth_le_strip_length (l : List Nat) :
    displayWidth l ≤ (stripColors l).length :=
  runeCount_le_length (stripColors l).length (stripColors l) (le_refl _)

theorem strip_ellipsis_reset :
    stripColors (ellipsisBytes ++ colorResetBytes) = ellipsisBytes := by
  have hc : IsAnsiCode colorResetBytes := ⟨[48], 109, rfl, by decide, by decide⟩
  rw [show ellipsisBytes ++ colorResetBytes = [46, 46, 46] ++ colorResetBytes from rfl]
  rw [stripColors_no_esc_append (by decide) colorResetBytes]
  have h2 : stripColors colorResetBytes = [] := by
    have h3 := stripColors_code_append hc []
    rw [List.append_nil] at h3
    simpa using h3
  rw [h2, List.append_nil]
  rfl

theorem truncate_width_le (s : List Nat) (w : Nat) (h : w < displayWidth s) :
    displayWidth (truncateString s w) ≤ w := by
  have hnle : ¬displayWidth s ≤ w := by omega
  simp only [truncateString, hnle, if_false]
  by_cases h3 : w ≤ 3
  · simp only [h3, if_true]
    by_cases hcl : (stripColors s).length ≤ w
    · simp only [hcl, if_true]
      have h1 := displayWidth_le_strip_length (stripColors s)
      have h2 := stripColors_length_le (stripColors s)
      omega
    · simp only [hcl, if_false]
      have h1 := displayWidth_le_strip_length ((stripColors s).take w)
      have h2 := stripColors_length_le ((stripColors s).take w)
      have h4 : ((stripColors s).take w).length ≤ w := by simp
      omega
  · simp only [h3, if_false]
    by_cases hcl : (stripColors s).length ≤ w - 3
    · simp only [hcl, if_true]
      have h1 := displayWidth_le_strip_length s
      omega
    · simp only [hcl, if_false]
      rw [List.append_assoc]
      have h1 := displayWidth_le_strip_length
        (buildTrunc (scanAnsi s).1 (scanAnsi s).2 (w - 3) 0 ++
          (ellipsisBytes ++ colorResetBytes))
      have h2 := buildTrunc_strip_le (scanAnsi s).1 (scanAnsi s).2
        (scanAnsi_codes s) (w - 3) 0 (ellipsisBytes ++ colorResetBytes)
      rw [strip_ellipsis_reset] at h2
      have h5 : ellipsisBytes.length = 3 := rfl
      omega

/-- C8: truncation is idempotent: truncating an already-truncated
string to the same width returns it unchanged, because every branch of
`truncateString` produces a string whose display width is at most
`maxLen`, and such strings are returned as-is. -/
theorem c8_truncate_idempotent :
    ∀ (s : List Nat) (w : Nat),
      truncateString (truncateString s w) w = truncateString s w := by
  intro s w
  by_cases h1 : displayWidth s ≤ w
  · have he : truncateString s w = s := by
      simp only [truncateString, h1, if_true]
    rw [he, truncateString, if_pos h1]
  · have h2 := truncate_width_le s w (by omega)
    generalize hx : truncateString s w = x at h2 ⊢
    simp only [truncateString, h2, if_true]

/-- C9: when the ANSI-stripped display width of `s` is within `maxLen`,
`truncateString` returns `s` unchanged; when it exceeds `maxLen`, the
result's display width (ANSI escape sequences excluded) is at most
`maxLen`. -/
theorem c9_truncate_display_width :
    ∀ (s : List Nat) (maxLen : Nat),
      (displayWidth s ≤ maxLen → truncateString s maxLen = s) ∧
      (maxLen < displayWidth s →
        displayWidth (truncateString s maxLen) ≤ maxLen) := by
  intro s maxLen
  exact ⟨fun h => by simp only [truncateString, h, if_true],
    fun h => truncate_width_le s maxLen h⟩

theorem c9_truncate_display_width_witness :
    displayWidth helloBytes ≤ 20 ∧
    truncateString helloBytes 20 = helloBytes ∧
    (5 : Nat) < displayWidth helloBytes ∧
    displayWidth (truncateString helloBytes 5) ≤ 5 := by
  refine ⟨by decide, (c9_truncate_display_width helloBytes 20).1 (by decide),
    by decide, (c9_truncate_display_width helloBytes 5).2 (by decide)⟩
